import Mathlib

/-!
Verification of the ocspd staple lifecycle engine: a shallow embedding of
`core/scheduling.py` and `core/certcontext.py`, with theorems settling the
spec claims about scheduling, deduplication, cancellation, OCSP staple
acquisition, validation-before-write and chain parsing.
-/

/-! ## Association lists with Python dict semantics

Python dicts preserve insertion order; assignment to an existing key keeps
its position, assignment to a fresh key appends.  These helpers model that. -/

/-- Dict lookup: `d[k]` returning `none` where Python raises `KeyError`. -/
def alookup {κ α : Type} [DecidableEq κ] : List (κ × α) → κ → Option α
  | [], _ => none
  | (k', v') :: rest, k => if k' = k then some v' else alookup rest k

/-- Dict assignment `d[k] = v`: replaces in place if the key exists, otherwise
appends at the end (Python insertion order). -/
def aset {κ α : Type} [DecidableEq κ] : List (κ × α) → κ → α → List (κ × α)
  | [], k, v => [(k, v)]
  | (k', v') :: rest, k, v =>
      if k' = k then (k, v) :: rest else (k', v') :: aset rest k v

/-- Dict removal `d.pop(k)` / `del d[k]`: returns the removed value and the
remaining dict, or `none` where Python raises `KeyError`. -/
def apop {κ α : Type} [DecidableEq κ] : List (κ × α) → κ → Option (α × List (κ × α))
  | [], _ => none
  | (k', v') :: rest, k =>
      if k' = k then some (v', rest)
      else
        match apop rest k with
        | none => none
        | some (v, rest') => some (v, (k', v') :: rest')

/-- Equality of `Except` values is decidable when both components are. -/
instance {ε α : Type} [DecidableEq ε] [DecidableEq α] : DecidableEq (Except ε α) :=
  fun x y =>
    match x, y with
    | .ok a, .ok b =>
      if h : a = b then .isTrue (by rw [h])
      else .isFalse (by intro he; injection he; exact h (by assumption))
    | .error a, .error b =>
      if h : a = b then .isTrue (by rw [h])
      else .isFalse (by intro he; injection he; exact h (by assumption))
    | .ok _, .error _ => .isFalse (by intro he; exact Except.noConfusion he)
    | .error _, .ok _ => .isFalse (by intro he; exact Except.noConfusion he)

/-! ## Scheduler (`core/scheduling.py`) -/

/-- Python exceptions surfaced by the scheduler embedding. -/
inductive PyError
  | keyError (msg : String)
  | attributeError (msg : String)
  | typeError (msg : String)
deriving DecidableEq, Repr

/-- A `ScheduledTaskContext`.  `oid` stands for the CPython object identity:
the scheduler's dicts hash contexts by identity and `cancel_task` compares
slot members with `is`, so identity is the key everywhere.  The mutable
`sched_time` attribute is passed separately to `add_task`/`reschedule`
(its value at call time), since the object itself is never copied. -/
structure ScheduledTaskContext where
  oid : Nat
  task : String
  name : String
deriving DecidableEq, Repr

/-- `ctx.sched_time`: either an absolute `datetime.datetime` or a relative
number of seconds (an `int`). -/
inductive SchedTime
  | abs (t : Nat)
  | rel (s : Nat)
deriving DecidableEq, Repr

/-- Python truthiness of `ctx.sched_time`: `None` and the int `0` are falsy,
a `datetime` object is always truthy. -/
def SchedTime.falsy : Option SchedTime → Bool
  | none => true
  | some (.rel 0) => true
  | _ => false

/-- The mutable state of a `SchedulerThread`: the named task queues
(`self._queues`), the forward map `self.schedule` (time slot → contexts),
the reverse map `self.scheduled` (context → time slot), and a counter of
`LOG.warning` calls. -/
structure SchedState where
  queues : List (String × List ScheduledTaskContext)
  schedule : List (Nat × List ScheduledTaskContext)
  scheduled : List (ScheduledTaskContext × Nat)
  warnings : Nat
deriving DecidableEq, Repr

/-- `SchedulerThread.add_queue`: register a named queue, `KeyError` if taken. -/
def add_queue (s : SchedState) (task : String) : SchedState × Option PyError :=
  match alookup s.queues task with
  | some _ => (s, some (.keyError "This queue is already taken."))
  | none => ({ s with queues := aset s.queues task [] }, none)

/-- `SchedulerThread._queue_task`: append the context to its named queue,
`KeyError` if the queue does not exist. -/
def queue_task (s : SchedState) (c : ScheduledTaskContext) : SchedState × Option PyError :=
  match alookup s.queues c.task with
  | none => (s, some (.keyError "Queue for task might not exist."))
  | some q => ({ s with queues := aset s.queues c.task (q ++ [c]) }, none)

/-- `SchedulerThread.cancel_task` (lines 184-203).  `self.scheduled.pop(ctx)`
happens before the forward-slot access, so its mutation survives a later
`KeyError`.  Line 199 filters the slot with `[x for x in slot if x is ctx]`:
it keeps exactly the elements identical to `ctx` and drops every other
context sharing the time slot. -/
def cancel_task (s : SchedState) (c : ScheduledTaskContext) : SchedState × Bool :=
  match apop s.scheduled c with
  | none => ({ s with warnings := s.warnings + 1 }, false)
  | some (t, scheduled') =>
    match alookup s.schedule t with
    | none => ({ s with scheduled := scheduled', warnings := s.warnings + 1 }, false)
    | some slot =>
        ({ s with scheduled := scheduled',
                  schedule := aset s.schedule t (slot.filter (fun x => x == c)) }, true)

/-- `SchedulerThread.add_task` (lines 141-176).  `now` is `datetime.now()`,
used to convert a relative `int` time.  A falsy `sched_time` queues the task
immediately.  The dedup check (line 165) cancels a previously scheduled entry
and logs a warning.  The membership test on line 170 uses `ctx.sched_time`
(the raw attribute), so for an `int` it never matches the `datetime` keys and
the assignment branch overwrites any slot already at the converted time.
The final `LOG.info` calls `ctx.sched_time.strftime`, which raises
`AttributeError` when `sched_time` is an `int` (after the maps were already
mutated). -/
def add_task (now : Nat) (s : SchedState) (c : ScheduledTaskContext)
    (ctxSchedTime : Option SchedTime) : SchedState × Option PyError :=
  if SchedTime.falsy ctxSchedTime then queue_task s c
  else
    match ctxSchedTime with
    | none => queue_task s c
    | some st =>
      let sched_time := match st with | .abs t => t | .rel k => now + k
      let s1 :=
        if (alookup s.scheduled c).isSome then
          (cancel_task { s with warnings := s.warnings + 1 } c).1
        else s
      let s2 := { s1 with scheduled := aset s1.scheduled c sched_time }
      let s3 :=
        match st with
        | .abs _ =>
          match alookup s2.schedule sched_time with
          | some slot => { s2 with schedule := aset s2.schedule sched_time (slot ++ [c]) }
          | none => { s2 with schedule := aset s2.schedule sched_time [c] }
        | .rel _ => { s2 with schedule := aset s2.schedule sched_time [c] }
      match st with
      | .rel _ => (s3, some (.attributeError "int object has no attribute strftime"))
      | .abs _ => (s3, none)

/-- Inner loop of `SchedulerThread._run`: for each context of an expired slot,
`del self.scheduled[ctx]` (a `KeyError` here propagates and aborts the run),
then `self._queue_task(ctx)`. -/
def runItems (s : SchedState) : List ScheduledTaskContext → SchedState × Option PyError
  | [] => (s, none)
  | c :: rest =>
    match apop s.scheduled c with
    | none => (s, some (.keyError "scheduled"))
    | some (_, scheduled') =>
      match queue_task { s with scheduled := scheduled' } c with
      | (s2, some e) => (s2, some e)
      | (s2, none) => runItems s2 rest

/-- Outer loop of `SchedulerThread._run`: pop each expired slot from
`self.schedule` and promote its contexts. -/
def runSlots (s : SchedState) : List Nat → SchedState × Option PyError
  | [] => (s, none)
  | t :: rest =>
    match apop s.schedule t with
    | none => (s, some (.keyError "schedule"))
    | some (items, schedule') =>
      match runItems { s with schedule := schedule' } items with
      | (s1, none) => runSlots s1 rest
      | (s1, some e) => (s1, some e)

/-- `SchedulerThread._run` (lines 248-278): take the schedule keys at or
before `now` (all of them when `allTasks`), in dict insertion order, and
promote each slot. -/
def sched_run (allTasks : Bool) (now : Nat) (s : SchedState) : SchedState × Option PyError :=
  runSlots s ((s.schedule.map Prod.fst).filter (fun t => allTasks || decide (t ≤ now)))

/-- `SchedulerThread.run_all`: promote everything regardless of schedule time. -/
def run_all (now : Nat) (s : SchedState) : SchedState × Option PyError :=
  sched_run true now s

/-- Positional parameters of `SchedulerThread.add_task` besides `self`
(line 141: `def add_task(self, ctx)`). -/
def ADD_TASK_PARAM_COUNT : Nat := 1

/-- Positional arguments passed by `ScheduledTaskContext.reschedule`
(line 77: `self.scheduler.add_task(self, sched_time)`). -/
def RESCHEDULE_ARG_COUNT : Nat := 2

/-- `ScheduledTaskContext.reschedule` (lines 69-80).  `scheduler` is the
`self.scheduler` attribute: `none` (Python `None`) when the context was never
added to a scheduler, in which case `None.add_task` raises `AttributeError`,
caught and re-raised with the fixed message.  Otherwise the call site passes
two positional arguments to `add_task`, which accepts one, so CPython raises
`TypeError` before the method body runs; `TypeError` is not caught by the
`except AttributeError` clause. -/
def reschedule (scheduler : Option SchedState) (now : Nat) (c : ScheduledTaskContext)
    (sched_time : Option SchedTime) : Except PyError SchedState :=
  match scheduler with
  | none => .error (.attributeError "This context was never added to a queue before.")
  | some s =>
      if RESCHEDULE_ARG_COUNT = ADD_TASK_PARAM_COUNT then
        match add_task now s c sched_time with
        | (s', none) => .ok s'
        | (_, some e) => .error e
      else .error (.typeError "add_task takes 2 positional arguments but 3 were given")

/-! ### Scheduler fixtures -/

/-- Context `a` of the shared-slot fixture. -/
def ctxA : ScheduledTaskContext := ⟨0, "q", "a"⟩

/-- Context `b` of the shared-slot fixture. -/
def ctxB : ScheduledTaskContext := ⟨1, "q", "b"⟩

/-- A scheduler with one queue `q` and contexts `a`, `b` both scheduled in
the time slot `10`. -/
def schedTwoInSlot : SchedState :=
  ⟨[("q", [])], [(10, [ctxA, ctxB])], [(ctxA, 10), (ctxB, 10)], 0⟩

/-- A scheduler with one empty queue `q` and nothing scheduled. -/
def schedEmpty : SchedState := ⟨[("q", [])], [], [], 0⟩

/-! ## Certificate contexts and staple acquisition (`core/certcontext.py`) -/

/-- An X.509 certificate as the acquisition code observes it: its DER bytes
(abstracted to a token), the BasicConstraints `cA` bit (`crt.ca`) and the AIA
OCSP URLs (`crt.ocsp_urls`). -/
structure Cert where
  der : Nat
  ca : Bool
  ocsp_urls : List String
deriving DecidableEq, Repr

/-- The `CertContext` fields read and written by `parse_crt_chain` and
`renew_ocsp_staple`.  (`ocsp_staple`, `valid_until` and the effect log live
in `AcqState` below, since they mutate during an acquisition call.) -/
structure CertContext where
  filename : String
  end_entity : Option Cert
  intermediates : List Cert
  ocsp_urls : List String
  chain : List Cert
deriving DecidableEq, Repr

/-- The parsed status of a non-empty OCSP response body, as reported by the
external `util.ocsp.OCSPResponseParser`.  A body is classified by what the
parser would say about it. -/
inductive RespBody
  | empty
  | good (validUntil : Nat)
  | revoked
  | unknownStatus
deriving DecidableEq, Repr

/-- Which of the caught exception classes a failed `requests.post` raised
(lines 153-173); all are handled identically (logged, execution continues). -/
inductive NetErrKind
  | urlError
  | timeout
  | tooManyRedirects
  | httpConnError
deriving DecidableEq, Repr

/-- Outcome of one `requests.post` (line 139).  `badStatus` is a completed
HTTP exchange whose `raise_for_status()` raises `requests.HTTPError`. -/
inductive PostOutcome
  | netError (k : NetErrKind)
  | badStatus
  | ok (body : RespBody)
deriving DecidableEq, Repr

/-- Observable events of an acquisition call: HTTP POSTs (with the URL index
used), observations of empty/revoked responses, back-off sleeps, and file
system operations. -/
inductive Ev
  | post (urlIdx : Nat)
  | obsEmpty
  | obsRevoked
  | slept (secs : Nat)
  | openWrite (path : String)
  | fileWrite (path : String) (data : RespBody)
  | rename (src : String) (dst : String)
deriving DecidableEq, Repr

/-- Errors an acquisition call can surface.  `certValidationError` is
`core.exceptions.CertValidationError` (the spec's `ChainValidationError`),
`ocspRenewError` is `OCSPRenewError`; the rest are uncaught Python runtime
errors.  `fuelExhausted` is an artifact of the bounded recursion and is
unreachable from the top-level entry point. -/
inductive RenewFailure
  | emptyResponse
  | certRevoked
  | urlsExhausted
deriving DecidableEq, Repr

inductive AcqError
  | certValidationError (msg : String)
  | ocspRenewError (r : RenewFailure)
  | indexError
  | unboundLocalError
  | nameError (n : String)
  | attributeError (msg : String)
  | fuelExhausted
deriving DecidableEq, Repr

/-- Mutable state threaded through an acquisition call: the number of POSTs
issued so far (indexing the environment's response script), the event trace,
and the record fields `self.ocsp_staple` and `self.valid_until`. -/
structure AcqState where
  nposts : Nat
  events : List Ev
  ocsp_staple : Option RespBody
  valid_until : Option Nat
deriving DecidableEq, Repr

/-- The external world of an acquisition call: `posts k` is the outcome of
the (k+1)-th HTTP POST, and `validate` is the external
`certvalidator`-backed `_validate_cert`, a function of `self.ocsp_staple`
(the varying input; the certificate and intermediates are fixed during a
call). `validate s = false` means `_validate_cert` raises
`CertValidationError`. -/
structure AcqEnv where
  posts : Nat → PostOutcome
  validate : Option RespBody → Bool

/-- Modelled from the spec: `OCSP_REQUEST_RETRY_COUNT` is imported from the
`ocsp` module, which is not part of the source tree; the spec fixes the
per-URL retry cap `retry_max` at its default 3. -/
def OCSP_REQUEST_RETRY_COUNT : Nat := 3

/-- `CertContext.check_ocsp_response` (lines 214-254).  An empty body raises
`OCSPRenewError`; otherwise the parsed response is stored in
`self.ocsp_staple` before the status is examined; `good` records
`self.valid_until` and returns `True`; `revoked` raises `OCSPRenewError`;
any other status returns `False`. -/
def check_ocsp_response (st : AcqState) (body : RespBody) : AcqState × Except AcqError Bool :=
  match body with
  | .empty =>
      ({ st with events := st.events ++ [.obsEmpty] },
       .error (.ocspRenewError .emptyResponse))
  | .good vu =>
      ({ st with ocsp_staple := some (.good vu), valid_until := some vu }, .ok true)
  | .revoked =>
      ({ st with ocsp_staple := some .revoked, events := st.events ++ [.obsRevoked] },
       .error (.ocspRenewError .certRevoked))
  | .unknownStatus =>
      ({ st with ocsp_staple := some .unknownStatus }, .ok false)

/-- How one pass of the `while retry > 0` loop ends. -/
inductive LoopExit
  | broke (staple : RespBody)
  | nextUrl
  | fellThrough
  | raised (e : AcqError)
deriving DecidableEq, Repr

/-- Lines 175-192: everything after the `try`/`except` block of one loop
iteration, given the bytes `ocspStaple` read from `request.content`.
On a `False` check the code decrements `retry`; if retries remain it
evaluates `ocsp.OCSP_REQUEST_RETRY_COUNT` for the back-off sleep, but the
name `ocsp` is not bound in the module (only `OCSP_REQUEST_RETRY_COUNT`
itself was imported from it), so this raises `NameError` — the loop can
never actually sleep and re-enter its body.  With no retries left it falls
back to the next URL if one exists, else raises `OCSPRenewError`. -/
def loopTail (numUrls urlIdx retry : Nat) (st : AcqState) (ocspStaple : RespBody) :
    AcqState × LoopExit :=
  match check_ocsp_response st ocspStaple with
  | (st1, .error e) => (st1, .raised e)
  | (st1, .ok true) => (st1, .broke ocspStaple)
  | (st1, .ok false) =>
      if retry - 1 > 0 then (st1, .raised (.nameError "ocsp"))
      else if urlIdx + 1 < numUrls then (st1, .nextUrl)
      else (st1, .raised (.ocspRenewError .urlsExhausted))

/-- The `while retry > 0` loop (lines 136-192).  `request` is the local
variable of that name: `none` models it being unbound.  A network error is
caught and logged, leaving `request` at its prior binding, so
`request.content` on line 175 raises `UnboundLocalError` when no earlier
attempt bound it (and reads the stale previous response otherwise).  A bad
HTTP status enters the `except HTTPError` handler, whose log call reads
`request.status` — an attribute `requests.Response` does not have — raising
`AttributeError`.  Since every path through the loop body breaks, returns or
raises (see `loopTail`), the body runs at most once and the model needs no
recursion. -/
def renewLoop (env : AcqEnv) (numUrls urlIdx retry : Nat) (request : Option RespBody)
    (st : AcqState) : AcqState × LoopExit :=
  match retry with
  | 0 => (st, .fellThrough)
  | _ + 1 =>
    let outcome := env.posts st.nposts
    let st1 := { st with nposts := st.nposts + 1, events := st.events ++ [.post urlIdx] }
    match outcome with
    | .badStatus => (st1, .raised (.attributeError "Response object has no attribute status"))
    | .netError _ =>
      match request with
      | none => (st1, .raised .unboundLocalError)
      | some staleBody => loopTail numUrls urlIdx retry st1 staleBody
    | .ok body => loopTail numUrls urlIdx retry st1 body

/-- Message of the `CertValidationError` raised when `end_entity` is unset
(lines 105-109). -/
def certMissingMsg : String := "Certificate is missing, cannot validate without it."

/-- Message of the `CertValidationError` raised when the validated chain is
empty (lines 110-114). -/
def chainMissingMsg : String := "Certificate chain is missing, cannot validate without it."

/-- Message of the `CertValidationError` raised when `_validate_cert` fails
(lines 309-315). -/
def validateFailMsg : String := "Failed to validate certificate path."

/-- `CertContext.renew_ocsp_staple` (lines 90-212), with explicit recursion
fuel for the `url_index+1` self-call.  In source order: the two eligibility
checks raise `CertValidationError`; `self.ocsp_urls[url_index]` raises
`IndexError` when the URL list is exhausted (or empty); building the OCSP
request reads `self.chain[-2]`, an `IndexError` when the chain has fewer
than two entries; then the retry loop runs.  After a `break` the staple is
re-validated with `self.ocsp_staple` in the validation context and only then
written: `open(filename + ".ocsp", "wb").write(ocsp_staple)` — a direct
write to the destination path, no temporary file and no rename.  If the
loop never ran (retry cap 0) the local `ocsp_staple` is unbound at the
write. -/
def renewAux (env : AcqEnv) (c : CertContext) :
    Nat → Nat → AcqState → AcqState × Except AcqError Bool
  | fuel, urlIdx, st =>
    match c.end_entity with
    | none => (st, .error (.certValidationError certMissingMsg))
    | some _ =>
      if c.chain.length < 1 then (st, .error (.certValidationError chainMissingMsg))
      else
        match c.ocsp_urls.get? urlIdx with
        | none => (st, .error .indexError)
        | some _ =>
          if c.chain.length < 2 then (st, .error .indexError)
          else
            match renewLoop env c.ocsp_urls.length urlIdx OCSP_REQUEST_RETRY_COUNT none st with
            | (st1, .raised e) => (st1, .error e)
            | (st1, .nextUrl) =>
              match fuel with
              | 0 => (st1, .error .fuelExhausted)
              | f + 1 => renewAux env c f (urlIdx + 1) st1
            | (st1, .broke staple) =>
              if env.validate st1.ocsp_staple then
                ({ st1 with events := st1.events ++
                    [.openWrite (c.filename ++ ".ocsp"),
                     .fileWrite (c.filename ++ ".ocsp") staple] }, .ok true)
              else (st1, .error (.certValidationError validateFailMsg))
            | (st1, .fellThrough) =>
              if env.validate st1.ocsp_staple then (st1, .error .unboundLocalError)
              else (st1, .error (.certValidationError validateFailMsg))

/-- `renew_ocsp_staple` as called by the renewer worker (`url_index = 0`);
the fuel `|ocsp_urls|` bounds the strictly increasing `url_index` chain. -/
def renew_ocsp_staple (env : AcqEnv) (c : CertContext) (st : AcqState) :
    AcqState × Except AcqError Bool :=
  renewAux env c c.ocsp_urls.length 0 st

/-! ## Chain parsing (`parse_crt_chain`, `_read_full_chain`) -/

/-- One PEM block of the certificate file as `asn1crypto.pem.unarmor` yields
it: a decodable `CERTIFICATE` block, a `CERTIFICATE` block whose DER bytes
raise `binascii.Error`, or a block of another type (skipped). -/
inductive PemItem
  | cert (c : Cert)
  | malformedDer
  | otherBlock (tag : String)
deriving DecidableEq, Repr

/-- `CertContext._read_full_chain` (lines 256-284).  CA certificates are
appended to the existing `self.intermediates` (the list is never reset); a
non-CA certificate replaces `self.end_entity` and `self.ocsp_urls`.  A
`binascii.Error` is caught and logged, aborting the loop with the state
accumulated so far.  The trailing diagnostics only log. -/
def read_full_chain : List PemItem → CertContext → CertContext
  | [], c => c
  | .malformedDer :: _, c => c
  | .otherBlock _ :: rest, c => read_full_chain rest c
  | .cert crt :: rest, c =>
      if crt.ca then
        read_full_chain rest { c with intermediates := c.intermediates ++ [crt] }
      else
        read_full_chain rest { c with end_entity := some crt, ocsp_urls := crt.ocsp_urls }

/-- The external chain validator as `parse_crt_chain` sees it: a function of
`(self.end_entity, self.intermediates)` returning the validated chain, or an
error covering both the `certvalidator` failures mapped to
`CertValidationError` and the `TypeError` path (missing chain parts) that
`parse_crt_chain` converts to `CertValidationError`. -/
structure ParseEnv where
  validateChain : Option Cert → List Cert → Except String (List Cert)

/-- `CertContext.parse_crt_chain` (lines 74-88): read the PEM file into the
record, then set `self.chain` from `_validate_cert`; on failure the record
keeps its previous `chain` and the error surfaces as `CertValidationError`. -/
def parse_crt_chain (env : ParseEnv) (file : List PemItem) (c : CertContext) :
    CertContext × Except String Unit :=
  let c1 := read_full_chain file c
  match env.validateChain c1.end_entity c1.intermediates with
  | .ok chain => ({ c1 with chain := chain }, .ok ())
  | .error m => (c1, .error m)

/-- The CA certificates a file contributes to `intermediates`: every CA
`CERTIFICATE` block before the first malformed one, in order. -/
def casOf : List PemItem → List Cert
  | [] => []
  | .malformedDer :: _ => []
  | .otherBlock _ :: rest => casOf rest
  | .cert crt :: rest => if crt.ca then crt :: casOf rest else casOf rest

/-- The certificate that ends up as `end_entity`: the last non-CA
`CERTIFICATE` block before the first malformed one, if any. -/
def lastLeaf : List PemItem → Option Cert
  | [] => none
  | .malformedDer :: _ => none
  | .otherBlock _ :: rest => lastLeaf rest
  | .cert crt :: rest =>
      if crt.ca then lastLeaf rest
      else match lastLeaf rest with
        | some l => some l
        | none => some crt

/-! ## Acquisition and parsing fixtures -/

/-- A leaf certificate advertising one OCSP responder URL. -/
def leafCert : Cert := ⟨1, false, ["u1"]⟩

/-- An intermediate CA certificate. -/
def caCert : Cert := ⟨0, true, []⟩

/-- An eligible record: end entity present, two-element validated chain, one
responder URL. -/
def ctxGood : CertContext :=
  ⟨"leaf.pem", some leafCert, [caCert], ["u1"], [leafCert, caCert]⟩

/-- An otherwise-eligible record whose `ocsp_urls` list is empty. -/
def ctxNoUrls : CertContext :=
  ⟨"leaf.pem", some leafCert, [caCert], [], [leafCert, caCert]⟩

/-- A record with no parsed end-entity certificate. -/
def ctxNoEE : CertContext :=
  ⟨"leaf.pem", none, [caCert], ["u1"], [leafCert, caCert]⟩

/-- A record with an empty validated chain. -/
def ctxNoChain : CertContext :=
  ⟨"leaf.pem", some leafCert, [caCert], ["u1"], []⟩

/-- The initial acquisition state: no POSTs, empty trace, no staple held. -/
def st0 : AcqState := ⟨0, [], none, none⟩

/-- A responder that always returns a `good` response; validation succeeds. -/
def envGood : AcqEnv := ⟨fun _ => .ok (.good 9), fun _ => true⟩

/-- A responder that reports the certificate revoked. -/
def envRevoked : AcqEnv := ⟨fun _ => .ok .revoked, fun _ => true⟩

/-- A responder that returns HTTP 200 with an empty body. -/
def envEmptyBody : AcqEnv := ⟨fun _ => .ok .empty, fun _ => true⟩

/-- A responder whose connections always fail (e.g. connection reset). -/
def envNetFail : AcqEnv := ⟨fun _ => .netError .httpConnError, fun _ => true⟩

/-- A PEM file holding one CA block and one leaf block. -/
def pemFile1 : List PemItem := [.cert caCert, .cert leafCert]

/-- A chain validator that accepts everything (the external collaborator's
behaviour is irrelevant to the parsing claims). -/
def penv : ParseEnv := ⟨fun _ _ => .ok []⟩

/-- A freshly constructed record for `"leaf.pem"` (after `__init__`). -/
def cctx0 : CertContext := ⟨"leaf.pem", none, [], [], []⟩

/-! ## Theorems: scheduler claims -/

/-- C1: claimed — after a successful `cancel_task(ctx)` the context is gone
from both maps, the other contexts of the slot stay scheduled and are
promoted at their time, and the cancelled context is never promoted.  The
code does the opposite: with `a` and `b` sharing slot 10, cancelling `a`
returns `True` but leaves the forward slot holding exactly `a` (line 199
keeps the elements `x is ctx`) and drops `b` from it; at time 10 the run
then dies with an uncaught `KeyError` and neither context ever reaches the
queue. -/
theorem cancel_task_keeps_cancelled_drops_others :
    cancel_task schedTwoInSlot ctxA =
      (⟨[("q", [])], [(10, [ctxA])], [(ctxB, 10)], 0⟩, true)
    ∧ sched_run false 10 (cancel_task schedTwoInSlot ctxA).1 =
      (⟨[("q", [])], [], [(ctxB, 10)], 0⟩, some (.keyError "scheduled")) := by
  exact ⟨by decide, by decide⟩

/-- C2: claimed — rescheduling the same context from time 5 to time 10
cancels the first entry so nothing is promoted at 5 and exactly one
promotion happens at 10 (with a warning).  The code logs the warning but the
buggy `cancel_task` leaves the context in the slot at 5, so the tick at
time 5 promotes it into the queue, and the tick at time 10 crashes with an
uncaught `KeyError` without promoting anything. -/
theorem add_task_dedup_promotes_at_old_time :
    (add_task 0 (add_task 0 schedEmpty ctxA (some (.abs 5))).1 ctxA (some (.abs 10))).1 =
      ⟨[("q", [])], [(5, [ctxA]), (10, [ctxA])], [(ctxA, 10)], 1⟩
    ∧ sched_run false 5 ⟨[("q", [])], [(5, [ctxA]), (10, [ctxA])], [(ctxA, 10)], 1⟩ =
      (⟨[("q", [ctxA])], [(10, [ctxA])], [], 1⟩, none)
    ∧ sched_run false 10 ⟨[("q", [ctxA])], [(10, [ctxA])], [], 1⟩ =
      (⟨[("q", [ctxA])], [], [], 1⟩, some (.keyError "scheduled")) := by
  exact ⟨by decide, by decide, by decide⟩

/-- C10: claimed — `reschedule(when)` on an attached context delegates to the
owning scheduler's `add_task` and schedules it; on a never-attached context
it raises the not-attached `AttributeError`.  The second half holds, but on
an attached context the call site passes two positional arguments to
`add_task`, which accepts only the context, so the call raises `TypeError`
(not caught by the `except AttributeError` clause) instead of scheduling. -/
theorem reschedule_arity_bug :
    reschedule (some schedEmpty) 0 ctxA (some (.abs 7)) =
      .error (.typeError "add_task takes 2 positional arguments but 3 were given")
    ∧ reschedule none 0 ctxA (some (.abs 7)) =
      .error (.attributeError "This context was never added to a queue before.") := by
  exact ⟨by decide, by decide⟩

/-! ## Theorems: acquisition claims settled by direct evaluation -/

/-- C6: claimed — a network error on the first attempt is logged and retried
(3 POSTs total, sleeps of 5 s and 10 s, final write).  In the code the first
failed POST leaves the local `request` unbound, so line 175
(`request.content`) raises `UnboundLocalError`: the call aborts after exactly
one POST, with no sleep and no file write. -/
theorem renew_first_network_error_aborts :
    renew_ocsp_staple envNetFail ctxGood st0 =
      (⟨1, [.post 0], none, none⟩, .error .unboundLocalError) := by
  decide

/-- C7 counterexample: on a successful acquisition the trace is a POST
followed by opening and writing `leaf.pem.ocsp` directly — no rename
operation occurs anywhere, so the staple is not written to a temporary file
and renamed into place. -/
theorem renew_write_no_rename_counterexample :
    (renew_ocsp_staple envGood ctxGood st0).1.events =
      [.post 0, .openWrite "leaf.pem.ocsp", .fileWrite "leaf.pem.ocsp" (.good 9)]
    ∧ ∀ s d, Ev.rename s d ∉ (renew_ocsp_staple envGood ctxGood st0).1.events := by
  have hev : (renew_ocsp_staple envGood ctxGood st0).1.events =
      [.post 0, .openWrite "leaf.pem.ocsp", .fileWrite "leaf.pem.ocsp" (.good 9)] := by
    decide
  refine ⟨hev, ?_⟩
  intro s d h
  rw [hev] at h
  simp at h

/-- C8 counterexample: a record with `end_entity` set, a two-element chain
and an empty `ocsp_urls` list makes `renew_ocsp_staple` raise `IndexError`
(from `self.ocsp_urls[url_index]`), not the claimed
`CertValidationError`; no HTTP request is made. -/
theorem renew_no_urls_indexerror_counterexample :
    renew_ocsp_staple envGood ctxNoUrls st0 = (st0, .error .indexError)
    ∧ (∀ m, (renew_ocsp_staple envGood ctxNoUrls st0).2 ≠
        .error (.certValidationError m))
    ∧ (renew_ocsp_staple envGood ctxNoUrls st0).1.events = [] := by
  have he : renew_ocsp_staple envGood ctxNoUrls st0 = (st0, .error .indexError) := by decide
  refine ⟨he, ?_, by decide⟩
  intro m h
  rw [he] at h
  simp at h

/-- C8 amended: a missing end-entity or an empty validated chain makes
`renew_ocsp_staple` raise `CertValidationError` with the state untouched (no
HTTP request); an empty `ocsp_urls` list on an otherwise complete record
instead raises `IndexError`, also without any HTTP request. -/
theorem renew_ineligible_behaviour (env : AcqEnv) (ctx : CertContext) (st : AcqState) :
    (ctx.end_entity = none →
      renew_ocsp_staple env ctx st = (st, .error (.certValidationError certMissingMsg)))
    ∧ (ctx.end_entity ≠ none → ctx.chain = [] →
      renew_ocsp_staple env ctx st = (st, .error (.certValidationError chainMissingMsg)))
    ∧ (ctx.end_entity ≠ none → ctx.chain ≠ [] → ctx.ocsp_urls = [] →
      renew_ocsp_staple env ctx st = (st, .error .indexError)) := by
  refine ⟨?_, ?_, ?_⟩
  · intro h
    simp [renew_ocsp_staple, renewAux, h]
  · intro h1 h2
    rcases he : ctx.end_entity with _ | ee
    · exact absurd he h1
    · simp [renew_ocsp_staple, renewAux, he, h2]
  · intro h1 h2 h3
    rcases he : ctx.end_entity with _ | ee
    · exact absurd he h1
    · have hlen : ¬ ctx.chain.length < 1 := by
        simp [Nat.lt_one_iff, List.length_eq_zero]
        exact h2
      simp [renew_ocsp_staple, renewAux, he, h3, hlen]

/-- C8 witness: the amended theorem applied to a record with no end entity
and to a record with an empty chain. -/
theorem renew_ineligible_behaviour_witness :
    renew_ocsp_staple envGood ctxNoEE st0 =
      (st0, .error (.certValidationError certMissingMsg))
    ∧ renew_ocsp_staple envGood ctxNoChain st0 =
      (st0, .error (.certValidationError chainMissingMsg)) := by
  constructor
  · exact (renew_ineligible_behaviour envGood ctxNoEE st0).1 rfl
  · exact (renew_ineligible_behaviour envGood ctxNoChain st0).2.1 (by decide) rfl

/-! ## Theorems: chain parsing (C9) -/

/-- Reading a chain file appends its CA blocks to whatever `intermediates`
already holds: the list is never reset. -/
theorem read_full_chain_intermediates (file : List PemItem) :
    ∀ c : CertContext,
      (read_full_chain file c).intermediates = c.intermediates ++ casOf file := by
  induction file with
  | nil => intro c; simp [read_full_chain, casOf]
  | cons item rest ih =>
    intro c
    cases item with
    | malformedDer => simp [read_full_chain, casOf]
    | otherBlock t => simp [read_full_chain, casOf, ih]
    | cert crt =>
      by_cases hca : crt.ca
      · simp [read_full_chain, casOf, hca, ih]
      · simp [read_full_chain, casOf, hca, ih]

/-- Reading a chain file replaces `end_entity` with the file's last leaf
block, keeping the prior value when the file has none. -/
theorem read_full_chain_end_entity (file : List PemItem) :
    ∀ c : CertContext,
      (read_full_chain file c).end_entity =
        (match lastLeaf file with
         | some l => some l
         | none => c.end_entity) := by
  induction file with
  | nil => intro c; simp [read_full_chain, lastLeaf]
  | cons item rest ih =>
    intro c
    cases item with
    | malformedDer => simp [read_full_chain, lastLeaf]
    | otherBlock t => simp [read_full_chain, lastLeaf, ih]
    | cert crt =>
      by_cases hca : crt.ca
      · simp [read_full_chain, lastLeaf, hca, ih]
      · simp only [read_full_chain, if_neg hca, lastLeaf]
        rw [ih]
        cases lastLeaf rest <;> simp

/-- Reading a chain file replaces `ocsp_urls` with the last leaf's AIA URLs,
keeping the prior value when the file has no leaf. -/
theorem read_full_chain_ocsp_urls (file : List PemItem) :
    ∀ c : CertContext,
      (read_full_chain file c).ocsp_urls =
        (match lastLeaf file with
         | some l => l.ocsp_urls
         | none => c.ocsp_urls) := by
  induction file with
  | nil => intro c; simp [read_full_chain, lastLeaf]
  | cons item rest ih =>
    intro c
    cases item with
    | malformedDer => simp [read_full_chain, lastLeaf]
    | otherBlock t => simp [read_full_chain, lastLeaf, ih]
    | cert crt =>
      by_cases hca : crt.ca
      · simp [read_full_chain, lastLeaf, hca, ih]
      · simp only [read_full_chain, if_neg hca, lastLeaf]
        rw [ih]
        cases lastLeaf rest <;> simp

/-- `parse_crt_chain` only changes `chain` beyond what `_read_full_chain`
did, regardless of the validator's verdict. -/
theorem parse_crt_chain_fields (env : ParseEnv) (file : List PemItem) (c : CertContext) :
    (parse_crt_chain env file c).1.end_entity = (read_full_chain file c).end_entity
    ∧ (parse_crt_chain env file c).1.intermediates = (read_full_chain file c).intermediates
    ∧ (parse_crt_chain env file c).1.ocsp_urls = (read_full_chain file c).ocsp_urls := by
  cases h : env.validateChain (read_full_chain file c).end_entity
      (read_full_chain file c).intermediates with
  | ok ch => simp [parse_crt_chain, h]
  | error m => simp [parse_crt_chain, h]

/-- C9 counterexample: parsing the same two-block file twice from a fresh
record does not reproduce the single-call state — the CA block is
accumulated into `intermediates` a second time. -/
theorem parse_crt_chain_not_idempotent_counterexample :
    (parse_crt_chain penv pemFile1 (parse_crt_chain penv pemFile1 cctx0).1).1
      ≠ (parse_crt_chain penv pemFile1 cctx0).1 := by
  decide

/-- C9 amended: a second `parse_crt_chain` on the same file replaces
`end_entity` and `ocsp_urls` (leaving them equal to the single-call state),
but appends every CA block again, so `intermediates` after the second call
is the single-call list duplicated — the operation is not idempotent. -/
theorem parse_crt_chain_second_call (env : ParseEnv) (file : List PemItem)
    (c0 : CertContext) (h : c0.intermediates = []) :
    (parse_crt_chain env file (parse_crt_chain env file c0).1).1.end_entity
        = (parse_crt_chain env file c0).1.end_entity
    ∧ (parse_crt_chain env file (parse_crt_chain env file c0).1).1.ocsp_urls
        = (parse_crt_chain env file c0).1.ocsp_urls
    ∧ (parse_crt_chain env file (parse_crt_chain env file c0).1).1.intermediates
        = (parse_crt_chain env file c0).1.intermediates
          ++ (parse_crt_chain env file c0).1.intermediates := by
  obtain ⟨he1, hi1, hu1⟩ := parse_crt_chain_fields env file c0
  obtain ⟨he2, hi2, hu2⟩ := parse_crt_chain_fields env file (parse_crt_chain env file c0).1
  refine ⟨?_, ?_, ?_⟩
  · rw [he2, read_full_chain_end_entity]
    cases hl : lastLeaf file <;> simp [hl, he1, read_full_chain_end_entity]
  · rw [hu2, read_full_chain_ocsp_urls]
    cases hl : lastLeaf file <;> simp [hl, hu1, read_full_chain_ocsp_urls]
  · rw [hi2, read_full_chain_intermediates, hi1, read_full_chain_intermediates, h]
    simp

/-- C9 witness: the amended theorem applied to the two-block fixture file
and a fresh record. -/
theorem parse_crt_chain_second_call_witness :
    (parse_crt_chain penv pemFile1 (parse_crt_chain penv pemFile1 cctx0).1).1.end_entity
        = (parse_crt_chain penv pemFile1 cctx0).1.end_entity
    ∧ (parse_crt_chain penv pemFile1 (parse_crt_chain penv pemFile1 cctx0).1).1.ocsp_urls
        = (parse_crt_chain penv pemFile1 cctx0).1.ocsp_urls
    ∧ (parse_crt_chain penv pemFile1 (parse_crt_chain penv pemFile1 cctx0).1).1.intermediates
        = (parse_crt_chain penv pemFile1 cctx0).1.intermediates
          ++ (parse_crt_chain penv pemFile1 cctx0).1.intermediates :=
  parse_crt_chain_second_call penv pemFile1 cctx0 rfl

/-! ## Trace lemmas for the acquisition loop -/

/-- Splitting an append at an element absent from the left part locates the
split inside the right part. -/
theorem append_split_of_not_mem {α : Type} {x : α} {l1 l2 pre suf : List α}
    (hx : x ∉ l1) (h : l1 ++ l2 = pre ++ x :: suf) :
    ∃ mid, pre = l1 ++ mid ∧ l2 = mid ++ x :: suf := by
  induction l1 generalizing pre with
  | nil =>
    refine ⟨pre, by simp, ?_⟩
    simpa using h
  | cons a l ih =>
    cases pre with
    | nil =>
      simp only [List.cons_append, List.nil_append] at h
      injection h with h1 h2
      subst h1
      exact absurd (List.mem_cons_self a l) hx
    | cons p pre' =>
      simp only [List.cons_append] at h
      injection h with h1 h2
      obtain ⟨mid, hm1, hm2⟩ := ih (fun hm => hx (List.mem_cons_of_mem a hm)) h2
      exact ⟨mid, by simp [← h1, hm1], hm2⟩

/-- A list ending in its only occurrence of `x` admits no split `pre ++ x ::
suf` with a non-empty tail. -/
theorem suffix_nil_of_ends_once {α : Type} {x : α} {del pre suf : List α}
    (hx : x ∉ del) (h : del ++ [x] = pre ++ x :: suf) : suf = [] := by
  obtain ⟨mid, _, hm2⟩ := append_split_of_not_mem hx h
  cases mid with
  | nil =>
    have := hm2
    simp only [List.nil_append] at this
    injection this with _ h2
    exact h2.symm
  | cons m ms =>
    have hlen := congrArg List.length hm2
    simp at hlen

/-- What `loopTail` does for each body: it appends at most one observation
event, an appended `obsRevoked`/`obsEmpty` forces the corresponding raise,
and a `broke` exit leaves the broken staple in `self.ocsp_staple`. -/
theorem loopTail_spec (n i r : Nat) (st : AcqState) (body : RespBody) :
    ∃ Δ : List Ev,
      (loopTail n i r st body).1.events = st.events ++ Δ ∧
      (Δ = [] ∨ Δ = [Ev.obsEmpty] ∨ Δ = [Ev.obsRevoked]) ∧
      (Δ = [Ev.obsRevoked] →
        (loopTail n i r st body).2 =
          LoopExit.raised (AcqError.ocspRenewError RenewFailure.certRevoked)) ∧
      (Δ = [Ev.obsEmpty] →
        (loopTail n i r st body).2 =
          LoopExit.raised (AcqError.ocspRenewError RenewFailure.emptyResponse)) ∧
      (∀ b, (loopTail n i r st body).2 = LoopExit.broke b →
        (loopTail n i r st body).1.ocsp_staple = some b) := by
  cases body with
  | empty =>
    exact ⟨[Ev.obsEmpty], by simp [loopTail, check_ocsp_response], by simp,
      by simp, by simp [loopTail, check_ocsp_response],
      by simp [loopTail, check_ocsp_response]⟩
  | good vu =>
    refine ⟨[], by simp [loopTail, check_ocsp_response], by simp, by simp, by simp, ?_⟩
    intro b hb
    have hbv : RespBody.good vu = b := by
      simpa [loopTail, check_ocsp_response] using hb
    simp [loopTail, check_ocsp_response, ← hbv]
  | revoked =>
    exact ⟨[Ev.obsRevoked], by simp [loopTail, check_ocsp_response], by simp,
      by simp [loopTail, check_ocsp_response], by simp,
      by simp [loopTail, check_ocsp_response]⟩
  | unknownStatus =>
    refine ⟨[], ?_, by simp, by simp, by simp, ?_⟩
    · simp only [loopTail, check_ocsp_response]
      split
      · simp
      · split <;> simp
    · intro b hb
      simp only [loopTail, check_ocsp_response] at hb
      split at hb
      · simp at hb
      · split at hb <;> simp at hb

/-- Trace behaviour of one pass of the retry loop: it appends the POST event
and whatever `loopTail` appends, it never writes or renames files, an
appended observation event is final and forces the corresponding raise, and
a `broke` exit leaves the broken staple in `self.ocsp_staple`. -/
theorem renewLoop_spec (env : AcqEnv) (n i r : Nat) (req : Option RespBody) (st : AcqState) :
    ∃ Δ : List Ev,
      (renewLoop env n i r req st).1.events = st.events ++ Δ ∧
      (∀ p b, Ev.fileWrite p b ∉ Δ) ∧
      (∀ p, Ev.openWrite p ∉ Δ) ∧
      (∀ a b, Ev.rename a b ∉ Δ) ∧
      (Ev.obsRevoked ∈ Δ →
        (∃ del, Δ = del ++ [Ev.obsRevoked] ∧ Ev.obsRevoked ∉ del) ∧
        (renewLoop env n i r req st).2 =
          LoopExit.raised (AcqError.ocspRenewError RenewFailure.certRevoked)) ∧
      (Ev.obsEmpty ∈ Δ →
        (∃ del, Δ = del ++ [Ev.obsEmpty] ∧ Ev.obsEmpty ∉ del) ∧
        (renewLoop env n i r req st).2 =
          LoopExit.raised (AcqError.ocspRenewError RenewFailure.emptyResponse)) ∧
      (∀ b, (renewLoop env n i r req st).2 = LoopExit.broke b →
        (renewLoop env n i r req st).1.ocsp_staple = some b) := by
  cases r with
  | zero =>
    refine ⟨[], ?_, by simp, by simp, by simp, by simp, by simp, ?_⟩
    · simp [renewLoop]
    · intro b hb
      simp [renewLoop] at hb
  | succ r' =>
    have hred :
        renewLoop env n i (r' + 1) req st =
          (match env.posts st.nposts with
           | .badStatus =>
             ({ st with nposts := st.nposts + 1, events := st.events ++ [.post i] },
               .raised (.attributeError "Response object has no attribute status"))
           | .netError _ =>
             (match req with
              | none =>
                ({ st with nposts := st.nposts + 1, events := st.events ++ [.post i] },
                  .raised .unboundLocalError)
              | some staleBody =>
                loopTail n i (r' + 1)
                  { st with nposts := st.nposts + 1, events := st.events ++ [.post i] }
                  staleBody)
           | .ok body =>
             loopTail n i (r' + 1)
               { st with nposts := st.nposts + 1, events := st.events ++ [.post i] }
               body) := rfl
    cases ho : env.posts st.nposts with
    | badStatus =>
      rw [hred, ho]
      refine ⟨[Ev.post i], by simp, by simp, by simp, by simp, by simp, by simp, ?_⟩
      intro b hb
      simp at hb
    | netError k =>
      cases req with
      | none =>
        rw [hred, ho]
        refine ⟨[Ev.post i], by simp, by simp, by simp, by simp, by simp, by simp, ?_⟩
        intro b hb
        simp at hb
      | some staleBody =>
        rw [hred, ho]
        obtain ⟨Δt, ht1, ht2, ht3, ht4, ht5⟩ :=
          loopTail_spec n i (r' + 1)
            { st with nposts := st.nposts + 1, events := st.events ++ [.post i] } staleBody
        refine ⟨Ev.post i :: Δt, ?_, ?_, ?_, ?_, ?_, ?_, ht5⟩
        · rw [ht1]; simp
        · rcases ht2 with h | h | h <;> simp [h]
        · rcases ht2 with h | h | h <;> simp [h]
        · rcases ht2 with h | h | h <;> simp [h]
        · intro hm
          rcases ht2 with h | h | h <;> simp [h] at hm ⊢
          exact ⟨⟨[Ev.post i], by simp, by simp⟩, ht3 h⟩
        · intro hm
          rcases ht2 with h | h | h <;> simp [h] at hm ⊢
          exact ⟨⟨[Ev.post i], by simp, by simp⟩, ht4 h⟩
    | ok body =>
      rw [hred, ho]
      obtain ⟨Δt, ht1, ht2, ht3, ht4, ht5⟩ :=
        loopTail_spec n i (r' + 1)
          { st with nposts := st.nposts + 1, events := st.events ++ [.post i] } body
      refine ⟨Ev.post i :: Δt, ?_, ?_, ?_, ?_, ?_, ?_, ht5⟩
      · rw [ht1]; simp
      · rcases ht2 with h | h | h <;> simp [h]
      · rcases ht2 with h | h | h <;> simp [h]
      · rcases ht2 with h | h | h <;> simp [h]
      · intro hm
        rcases ht2 with h | h | h <;> simp [h] at hm ⊢
        exact ⟨⟨[Ev.post i], by simp, by simp⟩, ht3 h⟩
      · intro hm
        rcases ht2 with h | h | h <;> simp [h] at hm ⊢
        exact ⟨⟨[Ev.post i], by simp, by simp⟩, ht4 h⟩

/-- With the retry cap fixed at 3, the loop body's only non-raising exits
are `broke` and `raised`: a `False` check has `retry - 1 = 2 > 0` remaining,
so the crashing sleep line is reached before any URL fallback, and the
`while` guard is initially true so the loop cannot fall through. -/
theorem renewLoop_three_exits (env : AcqEnv) (n i : Nat) (req : Option RespBody)
    (st : AcqState) :
    (renewLoop env n i OCSP_REQUEST_RETRY_COUNT req st).2 ≠ LoopExit.nextUrl
    ∧ (renewLoop env n i OCSP_REQUEST_RETRY_COUNT req st).2 ≠ LoopExit.fellThrough := by
  cases ho : env.posts st.nposts with
  | badStatus =>
    constructor <;> simp [renewLoop, OCSP_REQUEST_RETRY_COUNT, ho]
  | netError k =>
    cases req with
    | none => constructor <;> simp [renewLoop, OCSP_REQUEST_RETRY_COUNT, ho]
    | some staleBody =>
      cases staleBody <;>
        constructor <;>
          simp [renewLoop, OCSP_REQUEST_RETRY_COUNT, ho, loopTail, check_ocsp_response]
  | ok body =>
    cases body <;>
      constructor <;>
        simp [renewLoop, OCSP_REQUEST_RETRY_COUNT, ho, loopTail, check_ocsp_response]

/-- Master trace specification of `renew_ocsp_staple`: every file write goes
to `<filename>.ocsp` and happens only after validation with exactly the
written staple succeeded, with the call returning ok; no renames ever occur;
observing a revoked or empty response ends the trace at that observation and
forces the corresponding `OCSPRenewError`; a call that does not return ok
writes nothing. -/
theorem renewAux_spec (env : AcqEnv) (c : CertContext) (fuel i : Nat) (st : AcqState) :
    ∃ Δ : List Ev,
      (renewAux env c fuel i st).1.events = st.events ++ Δ ∧
      (∀ p b, Ev.fileWrite p b ∈ Δ →
        p = c.filename ++ ".ocsp" ∧ env.validate (some b) = true ∧
        (renewAux env c fuel i st).2 = .ok true) ∧
      (∀ p, Ev.openWrite p ∈ Δ → p = c.filename ++ ".ocsp") ∧
      (∀ a b, Ev.rename a b ∉ Δ) ∧
      (Ev.obsRevoked ∈ Δ →
        (∃ del, Δ = del ++ [Ev.obsRevoked] ∧ Ev.obsRevoked ∉ del) ∧
        (renewAux env c fuel i st).2 = .error (.ocspRenewError .certRevoked)) ∧
      (Ev.obsEmpty ∈ Δ →
        (∃ del, Δ = del ++ [Ev.obsEmpty] ∧ Ev.obsEmpty ∉ del) ∧
        (renewAux env c fuel i st).2 = .error (.ocspRenewError .emptyResponse)) ∧
      ((renewAux env c fuel i st).2 ≠ .ok true → ∀ p b, Ev.fileWrite p b ∉ Δ) := by
  rcases hee : c.end_entity with _ | ee
  · refine ⟨[], by simp [renewAux, hee], by simp, by simp, by simp, by simp, by simp, ?_⟩
    intro _ p b
    simp
  · by_cases h1 : c.chain.length < 1
    · refine ⟨[], by simp [renewAux, hee, h1], by simp, by simp, by simp, by simp,
        by simp, ?_⟩
      intro _ p b
      simp
    · rcases hu : c.ocsp_urls[i]? with _ | u
      · refine ⟨[], by simp [renewAux, hee, h1, hu], by simp, by simp, by simp, by simp,
          by simp, ?_⟩
        intro _ p b
        simp
      · by_cases h2 : c.chain.length < 2
        · refine ⟨[], by simp [renewAux, hee, h1, hu, h2], by simp, by simp, by simp,
            by simp, by simp, ?_⟩
          intro _ p b
          simp
        · obtain ⟨Δl, hev, hfw, how, hrn, hrev, hemp, hbroke⟩ :=
            renewLoop_spec env c.ocsp_urls.length i OCSP_REQUEST_RETRY_COUNT none st
          obtain ⟨hnn, hnf⟩ :=
            renewLoop_three_exits env c.ocsp_urls.length i none st
          rcases hl : renewLoop env c.ocsp_urls.length i OCSP_REQUEST_RETRY_COUNT none st
            with ⟨st1, ex⟩
          rw [hl] at hev hrev hemp hbroke hnn hnf
          cases ex with
          | nextUrl => exact absurd rfl hnn
          | fellThrough => exact absurd rfl hnf
          | raised e =>
            have hstep : renewAux env c fuel i st = (st1, .error e) := by
              simp [renewAux, hee, h1, hu, h2, hl]
            refine ⟨Δl, by rw [hstep]; exact hev, ?_, ?_, hrn, ?_, ?_, ?_⟩
            · intro p b hm
              exact absurd hm (hfw p b)
            · intro p hm
              exact absurd hm (how p)
            · intro hm
              obtain ⟨hend, hexit⟩ := hrev hm
              refine ⟨hend, ?_⟩
              rw [hstep]
              injection hexit with he
              rw [he]
            · intro hm
              obtain ⟨hend, hexit⟩ := hemp hm
              refine ⟨hend, ?_⟩
              rw [hstep]
              injection hexit with he
              rw [he]
            · intro _ p b hm
              exact absurd hm (hfw p b)
          | broke staple =>
            have hst : st1.ocsp_staple = some staple := hbroke staple rfl
            cases hv : env.validate st1.ocsp_staple with
            | false =>
              have hstep : renewAux env c fuel i st =
                  (st1, .error (.certValidationError validateFailMsg)) := by
                simp [renewAux, hee, h1, hu, h2, hl, hv]
              refine ⟨Δl, by rw [hstep]; exact hev, ?_, ?_, hrn, ?_, ?_, ?_⟩
              · intro p b hm
                exact absurd hm (hfw p b)
              · intro p hm
                exact absurd hm (how p)
              · intro hm
                exact absurd (hrev hm).2 (by simp)
              · intro hm
                exact absurd (hemp hm).2 (by simp)
              · intro _ p b hm
                exact absurd hm (hfw p b)
            | true =>
              have hstep : renewAux env c fuel i st =
                  ({ st1 with events := st1.events ++
                      [.openWrite (c.filename ++ ".ocsp"),
                       .fileWrite (c.filename ++ ".ocsp") staple] }, .ok true) := by
                simp [renewAux, hee, h1, hu, h2, hl, hv]
              refine ⟨Δl ++ [.openWrite (c.filename ++ ".ocsp"),
                  .fileWrite (c.filename ++ ".ocsp") staple], ?_, ?_, ?_, ?_, ?_, ?_, ?_⟩
              · have hev' : st1.events = st.events ++ Δl := hev
                simp [hstep, hev']
              · intro p b hm
                rcases List.mem_append.mp hm with hm | hm
                · exact absurd hm (hfw p b)
                · simp at hm
                  obtain ⟨hp, hb⟩ := hm
                  subst hp
                  subst hb
                  refine ⟨rfl, ?_, by rw [hstep]⟩
                  rw [← hst]
                  exact hv
              · intro p hm
                rcases List.mem_append.mp hm with hm | hm
                · exact absurd hm (how p)
                · simp at hm
                  exact hm
              · intro a b hm
                rcases List.mem_append.mp hm with hm | hm
                · exact absurd hm (hrn a b)
                · simp at hm
              · intro hm
                rcases List.mem_append.mp hm with hm | hm
                · exact absurd (hrev hm).2 (by simp)
                · simp at hm
              · intro hm
                rcases List.mem_append.mp hm with hm | hm
                · exact absurd (hemp hm).2 (by simp)
                · simp at hm
              · intro hne
                rw [hstep] at hne
                exact absurd rfl hne

/-! ## Theorems: acquisition trace claims -/

/-- C3: no bytes reach the staple file unless path validation including the
newly obtained staple succeeded immediately before the write (every written
staple `b` has `validate (some b) = true` and the call returns ok), and a
call that raises — in particular one whose validation step raised
`CertValidationError` — writes nothing. -/
theorem renew_write_after_validate (env : AcqEnv) (ctx : CertContext) (st : AcqState)
    (h : st.events = []) :
    (∀ p b, Ev.fileWrite p b ∈ (renew_ocsp_staple env ctx st).1.events →
      env.validate (some b) = true ∧ (renew_ocsp_staple env ctx st).2 = .ok true)
    ∧ (∀ e, (renew_ocsp_staple env ctx st).2 = .error e →
        ∀ p b, Ev.fileWrite p b ∉ (renew_ocsp_staple env ctx st).1.events) := by
  obtain ⟨Δ, hev, hfw, how, hrn, hrev, hemp, hnw⟩ :=
    renewAux_spec env ctx ctx.ocsp_urls.length 0 st
  have hdef : renew_ocsp_staple env ctx st = renewAux env ctx ctx.ocsp_urls.length 0 st := rfl
  rw [hdef]
  rw [h, List.nil_append] at hev
  constructor
  · intro p b hm
    rw [hev] at hm
    obtain ⟨_, hval, hok⟩ := hfw p b hm
    exact ⟨hval, hok⟩
  · intro e he p b hm
    rw [hev] at hm
    refine absurd hm (hnw ?_ p b)
    rw [he]
    exact fun hco => Except.noConfusion hco

/-- C3 witness: the theorem applied to the always-good responder, whose run
writes the staple, showing the written bytes were validated and the call
returned ok. -/
theorem renew_write_after_validate_witness :
    envGood.validate (some (.good 9)) = true
    ∧ (renew_ocsp_staple envGood ctxGood st0).2 = .ok true :=
  (renew_write_after_validate envGood ctxGood st0 rfl).1 "leaf.pem.ocsp" (.good 9) (by decide)

/-- C4: observing a `revoked` status is terminal for the acquisition call —
the event trace ends at that observation (nothing follows it: no further
POST to any URL and no write), the call raises `OCSPRenewError`, and no
staple file is written anywhere in the call. -/
theorem renew_revoked_terminal (env : AcqEnv) (ctx : CertContext) (st : AcqState)
    (h : st.events = []) :
    (∀ pre suf, (renew_ocsp_staple env ctx st).1.events = pre ++ Ev.obsRevoked :: suf →
      suf = [] ∧ (renew_ocsp_staple env ctx st).2 = .error (.ocspRenewError .certRevoked))
    ∧ (Ev.obsRevoked ∈ (renew_ocsp_staple env ctx st).1.events →
        ∀ p b, Ev.fileWrite p b ∉ (renew_ocsp_staple env ctx st).1.events) := by
  obtain ⟨Δ, hev, hfw, how, hrn, hrev, hemp, hnw⟩ :=
    renewAux_spec env ctx ctx.ocsp_urls.length 0 st
  have hdef : renew_ocsp_staple env ctx st = renewAux env ctx ctx.ocsp_urls.length 0 st := rfl
  rw [hdef]
  rw [h, List.nil_append] at hev
  constructor
  · intro pre suf hsplit
    rw [hev] at hsplit
    have hmem : Ev.obsRevoked ∈ Δ := by
      rw [hsplit]
      simp
    obtain ⟨⟨del, hdel, hnm⟩, hres⟩ := hrev hmem
    rw [hdel] at hsplit
    exact ⟨suffix_nil_of_ends_once hnm hsplit, hres⟩
  · intro hmem p b
    rw [hev] at hmem ⊢
    obtain ⟨_, hres⟩ := hrev hmem
    refine hnw ?_ p b
    rw [hres]
    exact fun hco => Except.noConfusion hco

/-- C4 witness: the theorem applied at a responder answering `revoked` on
the first POST; its trace is `[post 0, obsRevoked]`, split as
`[post 0] ++ obsRevoked :: []`. -/
theorem renew_revoked_terminal_witness :
    ([] : List Ev) = []
    ∧ (renew_ocsp_staple envRevoked ctxGood st0).2 =
        .error (.ocspRenewError .certRevoked) :=
  (renew_revoked_terminal envRevoked ctxGood st0 rfl).1 [Ev.post 0] [] (by decide)

/-- C5: observing an HTTP response with an empty body is terminal for the
acquisition call — the event trace ends at that observation (no retry of the
same URL, no fallback to a later URL, no write afterwards), the call raises
`OCSPRenewError`, and no staple file is written anywhere in the call. -/
theorem renew_empty_terminal (env : AcqEnv) (ctx : CertContext) (st : AcqState)
    (h : st.events = []) :
    (∀ pre suf, (renew_ocsp_staple env ctx st).1.events = pre ++ Ev.obsEmpty :: suf →
      suf = [] ∧ (renew_ocsp_staple env ctx st).2 = .error (.ocspRenewError .emptyResponse))
    ∧ (Ev.obsEmpty ∈ (renew_ocsp_staple env ctx st).1.events →
        ∀ p b, Ev.fileWrite p b ∉ (renew_ocsp_staple env ctx st).1.events) := by
  obtain ⟨Δ, hev, hfw, how, hrn, hrev, hemp, hnw⟩ :=
    renewAux_spec env ctx ctx.ocsp_urls.length 0 st
  have hdef : renew_ocsp_staple env ctx st = renewAux env ctx ctx.ocsp_urls.length 0 st := rfl
  rw [hdef]
  rw [h, List.nil_append] at hev
  constructor
  · intro pre suf hsplit
    rw [hev] at hsplit
    have hmem : Ev.obsEmpty ∈ Δ := by
      rw [hsplit]
      simp
    obtain ⟨⟨del, hdel, hnm⟩, hres⟩ := hemp hmem
    rw [hdel] at hsplit
    exact ⟨suffix_nil_of_ends_once hnm hsplit, hres⟩
  · intro hmem p b
    rw [hev] at hmem ⊢
    obtain ⟨_, hres⟩ := hemp hmem
    refine hnw ?_ p b
    rw [hres]
    exact fun hco => Except.noConfusion hco

/-- C5 witness: the theorem applied at a responder answering HTTP 200 with
an empty body on the first POST; its trace is `[post 0, obsEmpty]`. -/
theorem renew_empty_terminal_witness :
    ([] : List Ev) = []
    ∧ (renew_ocsp_staple envEmptyBody ctxGood st0).2 =
        .error (.ocspRenewError .emptyResponse) :=
  (renew_empty_terminal envEmptyBody ctxGood st0 rfl).1 [Ev.post 0] [] (by decide)

/-- C7 amended: on every acquisition call all file-system activity targets
`<certificate-path>.ocsp` directly — every open-for-write and every write go
to that path and no rename operation ever occurs, so the staple is written
in place rather than written to a temporary file and renamed. -/
theorem renew_write_direct (env : AcqEnv) (ctx : CertContext) (st : AcqState)
    (h : st.events = []) :
    (∀ p b, Ev.fileWrite p b ∈ (renew_ocsp_staple env ctx st).1.events →
      p = ctx.filename ++ ".ocsp")
    ∧ (∀ p, Ev.openWrite p ∈ (renew_ocsp_staple env ctx st).1.events →
      p = ctx.filename ++ ".ocsp")
    ∧ (∀ a b, Ev.rename a b ∉ (renew_ocsp_staple env ctx st).1.events) := by
  obtain ⟨Δ, hev, hfw, how, hrn, hrev, hemp, hnw⟩ :=
    renewAux_spec env ctx ctx.ocsp_urls.length 0 st
  have hdef : renew_ocsp_staple env ctx st = renewAux env ctx ctx.ocsp_urls.length 0 st := rfl
  rw [hdef]
  rw [h, List.nil_append] at hev
  refine ⟨?_, ?_, ?_⟩
  · intro p b hm
    rw [hev] at hm
    exact (hfw p b hm).1
  · intro p hm
    rw [hev] at hm
    exact how p hm
  · intro a b hm
    rw [hev] at hm
    exact absurd hm (hrn a b)

/-- C7 witness: the amended theorem applied to the always-good responder,
whose run performs a write; the written path is the destination itself. -/
theorem renew_write_direct_witness :
    "leaf.pem.ocsp" = ctxGood.filename ++ ".ocsp" :=
  (renew_write_direct envGood ctxGood st0 rfl).1 "leaf.pem.ocsp" (.good 9) (by decide)
